import Mathlib

/-!
Triton (Manta) gateway of minio: a shallow embedding.

The gateway `tritonObjects` (src/cmd/gateway-triton.go,
src/cmd/gateway-triton-unsupported.go, src/cmd/gateway-triton-anonymous.go)
translates bucket/object calls into requests to a remote directory store.

Modelling conventions
* a Go `string` is a Lean `String`; the path algorithms work on its characters
  (only the ASCII characters `/` and `.` are ever inspected);
* a Go `error` value is `Option GoError`, `none` being `nil`;
* a Go slice is `Option (List α)`, `none` being the nil slice;
* the remote client is a record of state-passing functions over an arbitrary
  backend state `σ`; every request the gateway issues is appended to a log, so
  that "issues no request" is a statement about the log;
* `log.Printf` output is not part of the modelled world.
-/

set_option autoImplicit false
set_option linter.unusedVariables false

namespace Triton

/-! ## Go standard library: `path.Clean` and `path.Join` -/

/-- The inner loop of the `..` case of `path.Clean`, on the reversed buffer:
after `out.w--`, keep decrementing `out.w` while `out.w > dotdot` and the
byte at `out.w` is not a slash. The argument is the buffer `buf[:w]` reversed
before the first decrement; the result is the reversed buffer afterwards. -/
def backtrackRev (dotdot : Nat) : List Char → List Char
  | [] => []
  | c :: rest => if rest.length > dotdot ∧ c ≠ '/' then backtrackRev dotdot rest else rest

/-- The buffer after the backtracking of a `..` element. -/
def backtrack (dotdot : Nat) (out : List Char) : List Char :=
  (backtrackRev dotdot out.reverse).reverse

/-- The main loop of `path.Clean`: `path` is the unread input `path[r:]`,
`out` the bytes written so far (`buf[:w]`), `dotdot` the index where `..` must
stop. Each iteration consumes at least one byte, so the number of iterations
is bounded by the length of the input. -/
def cleanLoop (rooted : Bool) : Nat → List Char → List Char → Nat → List Char
  | 0, _, out, _ => out
  | _ + 1, [], out, _ => out
  | fuel + 1, c :: rest, out, dotdot =>
    if c = '/' then
      -- empty path element
      cleanLoop rooted fuel rest out dotdot
    else if c = '.' ∧ (rest = [] ∨ rest.head? = some '/') then
      -- . element
      cleanLoop rooted fuel rest out dotdot
    else if c = '.' ∧ rest.head? = some '.' ∧
        (rest.tail = [] ∨ rest.tail.head? = some '/') then
      -- .. element: remove to last /
      if out.length > dotdot then
        cleanLoop rooted fuel rest.tail (backtrack dotdot out) dotdot
      else if rooted = false then
        let out1 := if out.length > 0 then out ++ ['/'] else out
        let out2 := out1 ++ ['.', '.']
        cleanLoop rooted fuel rest.tail out2 out2.length
      else
        cleanLoop rooted fuel rest.tail out dotdot
    else
      -- real path element: add slash if needed, copy element
      let out1 :=
        if (rooted = true ∧ out.length ≠ 1) ∨ (rooted = false ∧ out.length ≠ 0) then
          out ++ ['/']
        else out
      cleanLoop rooted fuel ((c :: rest).dropWhile (fun x => x ≠ '/'))
        (out1 ++ (c :: rest).takeWhile (fun x => x ≠ '/')) dotdot

/-- Go's `path.Clean` on the characters of the path. -/
def cleanChars (path : List Char) : List Char :=
  match path with
  | [] => ['.']
  | c :: rest =>
    let rooted : Bool := c = '/'
    let out :=
      if rooted then cleanLoop true rest.length rest ['/'] 1
      else cleanLoop false (c :: rest).length (c :: rest) [] 0
    if out.length = 0 then ['.'] else out

/-- Go's `path.Clean`. -/
def Clean (path : String) : String := ⟨cleanChars path.data⟩

/-- Go's `path.Join`: the elements from the first non-empty one on are joined
with slashes and the result is cleaned; no non-empty element gives "". -/
def Join (elem : List String) : String :=
  match elem.dropWhile (fun e => e = "") with
  | [] => ""
  | es => Clean ⟨List.intercalate ['/'] (es.map String.data)⟩

/-- The fixed root under which buckets and objects are addressed. -/
def MantaDefaultRootStore : String := "/stor"


/-! ## Go values: errors, bytes, readers, writers, slices, maps -/

/-- A Go `error` value that is not nil. `remote` is an error returned by the
remote storage client, `stream` an error of a reader or writer,
`NotImplemented` the value `NotImplemented{}` of package cmd, and `traced e`
the error `e` wrapped by `traceError`. -/
inductive GoError where
  | remote (msg : String)
  | stream (msg : String)
  | NotImplemented
  | traced (e : GoError)
  deriving DecidableEq, Repr

/-- Modelled from the spec: `traceError`, the helper of package cmd that wraps
an error with a stack trace (declared outside src/). A nil error stays nil, as
the anonymous get-object stub is a vacuous success; any other error is
returned wrapped. -/
def traceError : Option GoError → Option GoError
  | none => none
  | some e => some (GoError.traced e)

/-- One byte of an object body. -/
abbrev Byte := Fin 256

/-- Go's `time.Time`, as a number; `0` stands for the zero time. -/
abbrev Time := Int

/-- A Go slice: `none` is the nil slice, `some []` an empty non-nil slice. -/
abbrev Slice (α : Type) := Option (List α)

/-- Go's `append(s, x)`. -/
def Slice.append {α : Type} (s : Slice α) (x : α) : Slice α :=
  some (s.getD [] ++ [x])

/-- A Go `map[string]string`, as an association list. -/
abbrev GoMap := List (String × String)

/-- Go's `m[key]` on a `map[string]string`: the zero value "" when absent. -/
def GoMap.index (m : GoMap) (key : String) : String :=
  (m.lookup key).getD ""

/-- Go's conversion `uint64(x)` of an `int64`. -/
def uint64 (x : Int) : Nat := (x % 2 ^ 64).toNat

/-- Go's conversion `int64(n)` of a `uint64`. -/
def int64 (n : Nat) : Int :=
  if n % 2 ^ 64 < 2 ^ 63 then (n % 2 ^ 64 : Nat) else ((n % 2 ^ 64 : Nat) : Int) - 2 ^ 64

/-- An `io.Reader`: it delivers `data` and then ends, with `io.EOF` when `err`
is `none` and with the error `err` otherwise. -/
structure Reader where
  data : List Byte
  err : Option GoError := none
  deriving DecidableEq, Repr

/-- An `io.Writer`: `written` is what it has received; `limit = some (k, e)`
means that it accepts `k` more bytes and fails with `e` on the next one. -/
structure Writer where
  written : List Byte := []
  limit : Option (Nat × GoError) := none
  deriving DecidableEq, Repr

/-- Go's `ioutil.ReadAll`: the bytes read and the error, nil at end of file. -/
def ReadAll (r : Reader) : List Byte × Option GoError := (r.data, r.err)

/-- Go's `bytes.NewReader`. -/
def bytesNewReader (b : List Byte) : Reader := { data := b, err := none }

/-- Go's `io.Copy(dst, src)`: the number of bytes copied, the first error met
(nil when the source was copied to its end), and the writer afterwards. -/
def ioCopy (dst : Writer) (src : Reader) : (Nat × Option GoError) × Writer :=
  match dst.limit with
  | none => ((src.data.length, src.err), { dst with written := dst.written ++ src.data })
  | some (k, e) =>
    if src.data.length ≤ k then
      ((src.data.length, src.err),
        { written := dst.written ++ src.data, limit := some (k - src.data.length, e) })
    else
      ((k, some e), { written := dst.written ++ src.data.take k, limit := some (0, e) })

/-! ## The remote storage client (package storage of triton-go) -/

structure PutDirectoryInput where
  DirectoryName : String := ""
  deriving DecidableEq, Repr

structure ListDirectoryInput where
  DirectoryName : String := ""
  deriving DecidableEq, Repr

structure DeleteDirectoryInput where
  DirectoryName : String := ""
  deriving DecidableEq, Repr

structure GetObjectInput where
  ObjectPath : String := ""
  deriving DecidableEq, Repr

structure DeleteObjectInput where
  ObjectPath : String := ""
  deriving DecidableEq, Repr

structure PutObjectInput where
  ObjectPath : String := ""
  ContentType : String := ""
  ContentLength : Nat := 0
  ObjectReader : Reader := { data := [] }
  deriving DecidableEq, Repr

structure DirectoryEntry where
  ETag : String := ""
  ModifiedTime : Time := 0
  Name : String := ""
  Size : Nat := 0
  /-- The field `Type` of the Go struct ("directory" or "object"). -/
  Type_ : String := ""
  deriving DecidableEq, Repr

structure ListDirectoryOutput where
  Entries : List DirectoryEntry := []
  ResultSetSize : Nat := 0
  deriving DecidableEq, Repr

structure GetObjectOutput where
  ContentLength : Nat := 0
  ContentType : String := ""
  LastModified : Time := 0
  ContentMD5 : String := ""
  ETag : String := ""
  ObjectReader : Reader := { data := [] }
  deriving DecidableEq, Repr

/-- The remote client: each request takes the backend state and returns the
response (or the error) and the backend state afterwards. -/
structure StorageClient (σ : Type) where
  DirPut : PutDirectoryInput → σ → Option GoError × σ
  DirList : ListDirectoryInput → σ → Except GoError ListDirectoryOutput × σ
  DirDelete : DeleteDirectoryInput → σ → Option GoError × σ
  ObjectsGet : GetObjectInput → σ → Except GoError GetObjectOutput × σ
  ObjectsPut : PutObjectInput → σ → Option GoError × σ
  ObjectsDelete : DeleteObjectInput → σ → Option GoError × σ

/-- A request issued to the remote client. -/
inductive Request where
  | DirPut (input : PutDirectoryInput)
  | DirList (input : ListDirectoryInput)
  | DirDelete (input : DeleteDirectoryInput)
  | ObjectsGet (input : GetObjectInput)
  | ObjectsPut (input : PutObjectInput)
  | ObjectsDelete (input : DeleteObjectInput)
  deriving DecidableEq, Repr

/-- The remote path a request addresses. -/
def Request.path : Request → String
  | .DirPut i => i.DirectoryName
  | .DirList i => i.DirectoryName
  | .DirDelete i => i.DirectoryName
  | .ObjectsGet i => i.ObjectPath
  | .ObjectsPut i => i.ObjectPath
  | .ObjectsDelete i => i.ObjectPath

/-- The world a gateway call runs in: the state of the remote backend and the
log of the requests issued so far, oldest first. -/
structure World (σ : Type) where
  backend : σ
  requests : List Request

variable {σ : Type}

/-- `client.Dir().Put(ctx, input)`. -/
def StorageClient.dirPut (c : StorageClient σ) (input : PutDirectoryInput) (w : World σ) :
    Option GoError × World σ :=
  ((c.DirPut input w.backend).1,
    { backend := (c.DirPut input w.backend).2, requests := w.requests ++ [Request.DirPut input] })

/-- `client.Dir().List(ctx, input)`. -/
def StorageClient.dirList (c : StorageClient σ) (input : ListDirectoryInput) (w : World σ) :
    Except GoError ListDirectoryOutput × World σ :=
  ((c.DirList input w.backend).1,
    { backend := (c.DirList input w.backend).2, requests := w.requests ++ [Request.DirList input] })

/-- `client.Dir().Delete(ctx, input)`. -/
def StorageClient.dirDelete (c : StorageClient σ) (input : DeleteDirectoryInput) (w : World σ) :
    Option GoError × World σ :=
  ((c.DirDelete input w.backend).1,
    { backend := (c.DirDelete input w.backend).2,
      requests := w.requests ++ [Request.DirDelete input] })

/-- `client.Objects().Get(ctx, input)`. -/
def StorageClient.objectsGet (c : StorageClient σ) (input : GetObjectInput) (w : World σ) :
    Except GoError GetObjectOutput × World σ :=
  ((c.ObjectsGet input w.backend).1,
    { backend := (c.ObjectsGet input w.backend).2,
      requests := w.requests ++ [Request.ObjectsGet input] })

/-- `client.Objects().Put(ctx, input)`. -/
def StorageClient.objectsPut (c : StorageClient σ) (input : PutObjectInput) (w : World σ) :
    Option GoError × World σ :=
  ((c.ObjectsPut input w.backend).1,
    { backend := (c.ObjectsPut input w.backend).2,
      requests := w.requests ++ [Request.ObjectsPut input] })

/-- `client.Objects().Delete(ctx, input)`. -/
def StorageClient.objectsDelete (c : StorageClient σ) (input : DeleteObjectInput) (w : World σ) :
    Option GoError × World σ :=
  ((c.ObjectsDelete input w.backend).1,
    { backend := (c.ObjectsDelete input w.backend).2,
      requests := w.requests ++ [Request.ObjectsDelete input] })

/-! ## Result types of the object layer (package cmd, outside src/) -/

/-- Modelled from the spec: the struct `BucketInfo` of package cmd (declared
outside src/): a bucket summary, name and creation time. -/
structure BucketInfo where
  Name : String := ""
  Created : Time := 0
  deriving DecidableEq, Repr

/-- Modelled from the spec: the struct `ObjectInfo` of package cmd (declared
outside src/), with the attributes the gateway sets: bucket, name,
modification time, size, entity tag, content type, content encoding. -/
structure ObjectInfo where
  Bucket : String := ""
  Name : String := ""
  ModTime : Time := 0
  Size : Int := 0
  ETag : String := ""
  ContentType : String := ""
  ContentEncoding : String := ""
  deriving DecidableEq, Repr

/-- Modelled from the spec: the struct `ListObjectsInfo` of package cmd
(declared outside src/): one page of an object listing, the object entries and
the prefixes. -/
structure ListObjectsInfo where
  Objects : Slice ObjectInfo := none
  Prefixes : Slice String := none
  deriving DecidableEq, Repr

/-- Modelled from the spec: the struct `ListObjectsV2Info` of package cmd
(declared outside src/); the gateway only returns its zero value. -/
structure ListObjectsV2Info where
  Objects : Slice ObjectInfo := none
  Prefixes : Slice String := none
  ContinuationToken : String := ""
  deriving DecidableEq, Repr

/-- Modelled from the spec: the struct `PartInfo` of package cmd (declared
outside src/); the gateway only returns its zero value. -/
structure PartInfo where
  PartNumber : Int := 0
  ETag : String := ""
  Size : Int := 0
  deriving DecidableEq, Repr

/-- Modelled from the spec: the struct `ListMultipartsInfo` of package cmd
(declared outside src/); the gateway only returns its zero value. -/
structure ListMultipartsInfo where
  Uploads : Slice String := none
  CommonPrefixes : Slice String := none
  deriving DecidableEq, Repr

/-- Modelled from the spec: the struct `ListPartsInfo` of package cmd (declared
outside src/); the gateway only returns its zero value. -/
structure ListPartsInfo where
  Bucket : String := ""
  Object : String := ""
  UploadID : String := ""
  Parts : Slice PartInfo := none
  deriving DecidableEq, Repr

/-- Modelled from the spec: the struct `completePart` of package cmd (declared
outside src/): a part named in a complete-multipart-upload call. -/
structure completePart where
  PartNumber : Int := 0
  ETag : String := ""
  deriving DecidableEq, Repr

/-- The struct `policy.BucketAccessPolicy` of minio-go: a version and the
policy statements. -/
structure BucketAccessPolicy where
  Version : String := ""
  Statements : Slice String := none
  deriving DecidableEq, Repr

/-! ## The gateway -/

/-- The struct `tritonObjects`: the object layer over the remote client. -/
structure tritonObjects (σ : Type) where
  client : StorageClient σ

namespace tritonObjects

/-- The method `MakeBucketWithLocation`: create a directory under the root. -/
def MakeBucketWithLocation (t : tritonObjects σ) (bucket location : String) (w : World σ) :
    Option GoError × World σ :=
  match t.client.dirPut { DirectoryName := Join [MantaDefaultRootStore, bucket] } w with
  | (some err, w1) => (some err, w1)
  | (none, w1) => (none, w1)

/-- The method `GetBucketInfo`: fetch the bucket's path as an object. -/
def GetBucketInfo (t : tritonObjects σ) (bucket : String) (w : World σ) :
    (BucketInfo × Option GoError) × World σ :=
  match t.client.objectsGet { ObjectPath := Join [MantaDefaultRootStore, bucket] } w with
  | (.error err, w1) => (({}, some err), w1)
  | (.ok resp, w1) => (({ Name := bucket, Created := resp.LastModified }, none), w1)

/-- The method `ListBuckets`: the directories under the root. -/
def ListBuckets (t : tritonObjects σ) (w : World σ) :
    (Slice BucketInfo × Option GoError) × World σ :=
  match t.client.dirList { DirectoryName := Join [MantaDefaultRootStore] } w with
  | (.error err, w1) => ((none, some err), w1)
  | (.ok dirs, w1) =>
    let bucketList : Slice BucketInfo :=
      dirs.Entries.foldl
        (fun bucketList dir =>
          if dir.Type_ = "directory" then
            bucketList.append { Name := dir.Name, Created := dir.ModifiedTime }
          else bucketList)
        (some [])
    ((bucketList, none), w1)

/-- The method `DeleteBucket`: delete the bucket's directory. -/
def DeleteBucket (t : tritonObjects σ) (bucket : String) (w : World σ) :
    Option GoError × World σ :=
  t.client.dirDelete { DirectoryName := Join [MantaDefaultRootStore, bucket] } w

/-- The method `GetObjectInfo`: fetch the object and map its metadata. -/
def GetObjectInfo (t : tritonObjects σ) (bucket object : String) (w : World σ) :
    (ObjectInfo × Option GoError) × World σ :=
  match t.client.objectsGet { ObjectPath := Join [MantaDefaultRootStore, bucket, object] } w with
  | (.error err, w1) => (({}, some err), w1)
  | (.ok obj, w1) =>
    (({ Bucket := bucket, ContentType := obj.ContentType, Size := int64 obj.ContentLength,
        ModTime := obj.LastModified }, none), w1)

/-- The loop of `ListObjects` over the entries of the listing, with the two
slices built so far; the end of the loop returns them. -/
def listObjectsLoop (t : tritonObjects σ) (bucket pfx : String) :
    List DirectoryEntry → Slice ObjectInfo → Slice String → World σ →
    (ListObjectsInfo × Option GoError) × World σ
  | [], blObjects, blPrefixes, w => (({ Prefixes := blPrefixes, Objects := blObjects }, none), w)
  | obj :: rest, blObjects, blPrefixes, w =>
    if obj.Type_ = "directory" then
      listObjectsLoop t bucket pfx rest blObjects (blPrefixes.append (obj.Name ++ "/")) w
    else
      let pathway := Join [bucket, pfx]
      match t.GetObjectInfo pathway obj.Name w with
      | ((_, some err), w1) => (({}, some err), w1)
      | ((objInfo, none), w1) =>
        let bucketInfo : ObjectInfo :=
          { Name := obj.Name, ContentType := objInfo.ContentType, ETag := objInfo.ETag,
            ContentEncoding := objInfo.ContentEncoding, Size := objInfo.Size,
            ModTime := objInfo.ModTime }
        listObjectsLoop t bucket pfx rest (blObjects.append bucketInfo) blPrefixes w1

/-- The method `ListObjects` (its parameter `prefix` is `pfx` here). -/
def ListObjects (t : tritonObjects σ) (bucket pfx marker delimiter : String) (maxKeys : Int)
    (w : World σ) : (ListObjectsInfo × Option GoError) × World σ :=
  match t.client.dirList { DirectoryName := Join [MantaDefaultRootStore, bucket, pfx] } w with
  | (.error err, w1) => (({}, some err), w1)
  | (.ok objs, w1) => listObjectsLoop t bucket pfx objs.Entries (some []) (some []) w1

/-- The method `GetObject`: the error, the caller's writer afterwards, and the
world. The error returned by `io.Copy` is assigned and never read. -/
def GetObject (t : tritonObjects σ) (bucket object : String) (startOffset length : Int)
    (writer : Writer) (w : World σ) : (Option GoError × Writer) × World σ :=
  match t.client.objectsGet { ObjectPath := Join [MantaDefaultRootStore, bucket, object] } w with
  | (.error err, w1) => ((some err, writer), w1)
  | (.ok output, w1) => ((none, (ioCopy writer output.ObjectReader).2), w1)

/-- The method `PutObject`. -/
def PutObject (t : tritonObjects σ) (bucket object : String) (size : Int) (data : Reader)
    (metadata : GoMap) (sha256sum : String) (w : World σ) :
    (ObjectInfo × Option GoError) × World σ :=
  match ReadAll data with
  | (_, some err) => (({}, some err), w)
  | (b, none) =>
    match t.client.objectsPut
        { ContentLength := uint64 size,
          ObjectPath := Join [MantaDefaultRootStore, bucket, object],
          ContentType := metadata.index "content-type",
          ObjectReader := bytesNewReader b } w with
    | (some err, w1) => (({}, some err), w1)
    | (none, w1) => (({}, none), w1)

/-- The method `CopyObject`: it only logs and returns the zero value. -/
def CopyObject (_t : tritonObjects σ) (srcBucket srcObject destBucket destObject : String)
    (metadata : GoMap) (w : World σ) : (ObjectInfo × Option GoError) × World σ :=
  (({}, none), w)

/-- The method `DeleteObject`. -/
def DeleteObject (t : tritonObjects σ) (bucket object : String) (w : World σ) :
    Option GoError × World σ :=
  match t.client.objectsDelete { ObjectPath := Join [MantaDefaultRootStore, bucket, object] } w with
  | (some err, w1) => (some err, w1)
  | (none, w1) => (none, w1)

/-- The method `SetBucketPolicies`. -/
def SetBucketPolicies (_t : tritonObjects σ) (bucket : String) (policyInfo : BucketAccessPolicy)
    (w : World σ) : Option GoError × World σ :=
  (none, w)

/-- The method `GetBucketPolicies`. -/
def GetBucketPolicies (_t : tritonObjects σ) (bucket : String) (w : World σ) :
    (BucketAccessPolicy × Option GoError) × World σ :=
  (({}, none), w)

/-- The method `DeleteBucketPolicies`. -/
def DeleteBucketPolicies (_t : tritonObjects σ) (bucket : String) (w : World σ) :
    Option GoError × World σ :=
  (none, w)

/-! ### gateway-triton-unsupported.go -/

/-- The method `HealBucket`. -/
def HealBucket (_t : tritonObjects σ) (bucket : String) (w : World σ) :
    Option GoError × World σ :=
  (traceError (some GoError.NotImplemented), w)

/-- The method `ListBucketsHeal`. -/
def ListBucketsHeal (_t : tritonObjects σ) (w : World σ) :
    (Slice BucketInfo × Option GoError) × World σ :=
  ((none, traceError (some GoError.NotImplemented)), w)

/-- The method `HealObject`. -/
def HealObject (_t : tritonObjects σ) (bucket object : String) (w : World σ) :
    (Int × Int × Option GoError) × World σ :=
  ((0, 0, traceError (some GoError.NotImplemented)), w)

/-- The method `ListObjectsHeal`. -/
def ListObjectsHeal (_t : tritonObjects σ) (bucket pfx marker delimiter : String)
    (maxKeys : Int) (w : World σ) : (ListObjectsInfo × Option GoError) × World σ :=
  (({}, traceError (some GoError.NotImplemented)), w)

/-- The method `ListUploadsHeal`. -/
def ListUploadsHeal (_t : tritonObjects σ)
    (bucket pfx marker uploadIDMarker delimiter : String) (maxUploads : Int) (w : World σ) :
    (ListMultipartsInfo × Option GoError) × World σ :=
  (({}, traceError (some GoError.NotImplemented)), w)

/-- The method `ListObjectsV2`. -/
def ListObjectsV2 (_t : tritonObjects σ) (bucket pfx continuationToken : String)
    (fetchOwner : Bool) (delimiter : String) (maxKeys : Int) (w : World σ) :
    (ListObjectsV2Info × Option GoError) × World σ :=
  (({}, none), w)

/-- The method `ListMultipartUploads`. -/
def ListMultipartUploads (_t : tritonObjects σ)
    (bucket pfx keyMarker uploadIDMarker delimiter : String) (maxUploads : Int) (w : World σ) :
    (ListMultipartsInfo × Option GoError) × World σ :=
  (({}, none), w)

/-- The method `NewMultipartUpload`. -/
def NewMultipartUpload (_t : tritonObjects σ) (bucket object : String) (metadata : GoMap)
    (w : World σ) : (String × Option GoError) × World σ :=
  (("", none), w)

/-- The method `PutObjectPart`. -/
def PutObjectPart (_t : tritonObjects σ) (bucket object uploadID : String) (partID : Int)
    (size : Int) (data : Reader) (md5Hex sha256sum : String) (w : World σ) :
    (PartInfo × Option GoError) × World σ :=
  (({}, none), w)

/-- The method `ListObjectParts`. -/
def ListObjectParts (_t : tritonObjects σ) (bucket object uploadID : String)
    (partNumberMarker maxParts : Int) (w : World σ) :
    (ListPartsInfo × Option GoError) × World σ :=
  (({}, none), w)

/-- The method `AbortMultipartUpload`. -/
def AbortMultipartUpload (_t : tritonObjects σ) (bucket object uploadID : String)
    (w : World σ) : Option GoError × World σ :=
  (none, w)

/-- The method `CompleteMultipartUpload`. -/
def CompleteMultipartUpload (_t : tritonObjects σ) (bucket object uploadID : String)
    (uploadedParts : Slice completePart) (w : World σ) :
    (ObjectInfo × Option GoError) × World σ :=
  (({}, none), w)

/-- The method `CopyObjectPart`. -/
def CopyObjectPart (_t : tritonObjects σ)
    (srcBucket srcObject destBucket destObject uploadID : String) (partID : Int)
    (startOffset length : Int) (w : World σ) : (PartInfo × Option GoError) × World σ :=
  (({}, traceError (some GoError.NotImplemented)), w)

/-! ### gateway-triton-anonymous.go -/

/-- The method `AnonGetBucketInfo`. -/
def AnonGetBucketInfo (_t : tritonObjects σ) (bucket : String) (w : World σ) :
    (BucketInfo × Option GoError) × World σ :=
  (({}, none), w)

/-- The method `AnonPutObject`. -/
def AnonPutObject (_t : tritonObjects σ) (bucket object : String) (size : Int) (data : Reader)
    (metadata : GoMap) (sha256sum : String) (w : World σ) :
    (ObjectInfo × Option GoError) × World σ :=
  (({}, traceError (some GoError.NotImplemented)), w)

/-- The method `AnonGetObject`: it returns `traceError(err)` of its named
result `err`, which is nil. -/
def AnonGetObject (_t : tritonObjects σ) (bucket object : String) (startOffset length : Int)
    (writer : Writer) (w : World σ) : (Option GoError × Writer) × World σ :=
  let err : Option GoError := none
  ((traceError err, writer), w)

/-- The method `AnonGetObjectInfo`. -/
def AnonGetObjectInfo (_t : tritonObjects σ) (bucket object : String) (w : World σ) :
    (ObjectInfo × Option GoError) × World σ :=
  (({}, none), w)

/-- The method `AnonListObjects`. -/
def AnonListObjects (_t : tritonObjects σ) (bucket pfx marker delimiter : String)
    (maxKeys : Int) (w : World σ) : (ListObjectsInfo × Option GoError) × World σ :=
  (({}, none), w)

/-- The method `AnonListObjectsV2`. -/
def AnonListObjectsV2 (_t : tritonObjects σ) (bucket pfx continuationToken : String)
    (fetchOwner : Bool) (delimiter : String) (maxKeys : Int) (w : World σ) :
    (ListObjectsV2Info × Option GoError) × World σ :=
  (({}, none), w)

end tritonObjects

/-- The request PutObject sends once the input stream has been read. -/
def putRequest (bucket object : String) (size : Int) (b : List Byte) (metadata : GoMap) :
    PutObjectInput :=
  { ContentLength := uint64 size,
    ObjectPath := Join [MantaDefaultRootStore, bucket, object],
    ContentType := metadata.index "content-type",
    ObjectReader := { data := b, err := none } }

/-- The object entry ListObjects builds for a file entry called `name` whose
metadata fetch returned `objInfo`. -/
def listedObject (name : String) (objInfo : ObjectInfo) : ObjectInfo :=
  { Name := name, ContentType := objInfo.ContentType, ETag := objInfo.ETag,
    ContentEncoding := objInfo.ContentEncoding, Size := objInfo.Size,
    ModTime := objInfo.ModTime }

/-- The path lies beneath the fixed root: it is "/stor" or begins with
"/stor/". -/
def beneathRoot (p : String) : Prop :=
  p = MantaDefaultRootStore ∨ (MantaDefaultRootStore.data ++ ['/']) <+: p.data

instance (p : String) : Decidable (beneathRoot p) := by
  unfold beneathRoot
  exact inferInstance

/-- One of the slash-separated elements of the name is "..". -/
def hasDotDotElement (name : String) : Prop :=
  ['.', '.'] ∈ name.data.splitOn '/'

instance (name : String) : Decidable (hasDotDotElement name) := by
  unfold hasDotDotElement
  exact inferInstance

/-- The invariant of the output buffer: "/stor", or something under it. -/
def underRoot (out : List Char) : Prop :=
  out = ['/', 's', 't', 'o', 'r'] ∨ ['/', 's', 't', 'o', 'r', '/'] <+: out

/-! ## Properties of a backend, and an in-memory backend -/

/-- The backend honors writes: after a successful put, a get of the same path
succeeds and its body is the bytes of the put request's reader. -/
def HonorsWrites (c : StorageClient σ) : Prop :=
  ∀ (input : PutObjectInput) (s : σ), (c.ObjectsPut input s).1 = none →
    ∃ out, (c.ObjectsGet { ObjectPath := input.ObjectPath } (c.ObjectsPut input s).2).1 = .ok out ∧
      out.ObjectReader = { data := input.ObjectReader.data, err := none }

/-- Get requests leave the backend as it is. -/
def ReadOnlyGets (c : StorageClient σ) : Prop :=
  ∀ (input : GetObjectInput) (s : σ), (c.ObjectsGet input s).2 = s

/-- The state of the in-memory backend: the entries every directory listing
returns, and the stored objects by path. -/
structure FakeStore where
  entries : List DirectoryEntry := []
  objects : List (String × GetObjectOutput) := []
  deriving DecidableEq, Repr

/-- An in-memory backend: puts store the request, gets look the path up. -/
def fakeClient : StorageClient FakeStore where
  DirPut := fun _ s => (none, s)
  DirList := fun _ s => (.ok { Entries := s.entries, ResultSetSize := s.entries.length }, s)
  DirDelete := fun _ s => (none, s)
  ObjectsGet := fun input s =>
    match s.objects.lookup input.ObjectPath with
    | some o => (.ok o, s)
    | none => (.error (GoError.remote "ResourceNotFound"), s)
  ObjectsPut := fun input s =>
    (none,
      { s with
        objects :=
          (input.ObjectPath,
            { ContentLength := input.ContentLength, ContentType := input.ContentType,
              ObjectReader := { data := input.ObjectReader.data, err := none } }) :: s.objects })
  ObjectsDelete := fun input s =>
    (none, { s with objects := s.objects.filter (fun o => o.1 ≠ input.ObjectPath) })

/-- The gateway over the in-memory backend. -/
def fakeGateway : tritonObjects FakeStore := { client := fakeClient }

end Triton

open Triton Triton.tritonObjects

variable {σ : Type}

/-! ## Helper lemmas -/

theorem Slice_append_some {α : Type} (l : List α) (x : α) :
    Slice.append (some l) x = some (l ++ [x]) := rfl

theorem fakeClient_honorsWrites : HonorsWrites fakeClient := by
  intro input s _
  refine ⟨{ ContentLength := input.ContentLength, ContentType := input.ContentType,
            ObjectReader := { data := input.ObjectReader.data, err := none } }, ?_, rfl⟩
  simp [fakeClient, List.lookup]

theorem fakeClient_readOnlyGets : ReadOnlyGets fakeClient := by
  intro input s
  simp only [fakeClient]
  split <;> rfl

theorem PutObject_of_read_ok (t : tritonObjects σ) (bucket object : String) (size : Int)
    (b : List Byte) (metadata : GoMap) (sha256sum : String) (w : World σ) :
    t.PutObject bucket object size { data := b, err := none } metadata sha256sum w
      = (({}, (t.client.ObjectsPut (putRequest bucket object size b metadata) w.backend).1),
          { backend := (t.client.ObjectsPut (putRequest bucket object size b metadata) w.backend).2,
            requests := w.requests ++
              [Request.ObjectsPut (putRequest bucket object size b metadata)] }) := by
  simp only [PutObject, ReadAll, StorageClient.objectsPut, bytesNewReader, putRequest]
  cases h : (t.client.ObjectsPut _ w.backend).1 <;> rfl

/-! ## C1 -/

/-- C1: over a backend that honors writes, a successful PutObject of content
followed by GetObject of the same bucket and key, with any startOffset and
length, returns nil and appends exactly content to the writer. -/
theorem PutObject_then_GetObject_returns_content (t : tritonObjects σ)
    (hc : HonorsWrites t.client) (bucket key : String) (content : List Byte)
    (metadata : GoMap) (sha256sum : String) (startOffset length : Int)
    (written : List Byte) (w : World σ)
    (hput : (t.PutObject bucket key content.length { data := content, err := none }
              metadata sha256sum w).1.2 = none) :
    (t.GetObject bucket key startOffset length { written := written, limit := none }
        (t.PutObject bucket key content.length { data := content, err := none }
          metadata sha256sum w).2).1
      = (none, { written := written ++ content, limit := none }) := by
  rw [PutObject_of_read_ok] at hput ⊢
  obtain ⟨out, hget, hbody⟩ := hc _ w.backend hput
  have hget2 : (t.client.ObjectsGet { ObjectPath := Join [MantaDefaultRootStore, bucket, key] }
      (t.client.ObjectsPut (putRequest bucket key content.length content metadata)
        w.backend).2).1 = .ok out := hget
  simp only [putRequest] at hbody
  simp only [GetObject, StorageClient.objectsGet, hget2, ioCopy, hbody]

/-- C1 (witness): three bytes put to photos/a/b.txt on the in-memory backend come back whole for the range (1, 1). -/
theorem PutObject_then_GetObject_returns_content_witness :
    (fakeGateway.GetObject "photos" "a/b.txt" 1 1 { written := [], limit := none }
        (fakeGateway.PutObject "photos" "a/b.txt" ([7, 8, 9] : List Byte).length
          { data := [7, 8, 9], err := none } [] "" { backend := {}, requests := [] }).2).1
      = (none, { written := [] ++ [7, 8, 9], limit := none }) :=
  PutObject_then_GetObject_returns_content fakeGateway fakeClient_honorsWrites "photos" "a/b.txt"
    [7, 8, 9] [] "" 1 1 [] { backend := {}, requests := [] } (by decide)

/-! ## C4 -/

theorem foldl_bucketList (es : List DirectoryEntry) (acc : List BucketInfo) :
    es.foldl
        (fun (bucketList : Slice BucketInfo) dir =>
          if dir.Type_ = "directory" then
            bucketList.append { Name := dir.Name, Created := dir.ModifiedTime }
          else bucketList)
        (some acc)
      = some (acc ++ (es.filter (fun e => e.Type_ = "directory")).map
          (fun e => ({ Name := e.Name, Created := e.ModifiedTime } : BucketInfo))) := by
  induction es generalizing acc with
  | nil => simp
  | cons e es ih =>
    by_cases h : e.Type_ = "directory"
    · simp only [List.foldl_cons, h, if_true, Slice_append_some, ih, List.filter_cons,
        decide_True, List.map_cons, List.append_assoc, List.singleton_append]
    · simp [List.foldl_cons, h, ih]

/-- C4: when the listing of the root "/stor" succeeds, ListBuckets returns nil
error and the entries of type "directory", in order, each as
BucketInfo (Name, Created := ModifiedTime); without any directory entry the
result is the empty non-nil list. -/
theorem ListBuckets_returns_directories (t : tritonObjects σ) (w : World σ)
    (dirs : ListDirectoryOutput) (s1 : σ)
    (hlist : t.client.DirList { DirectoryName := "/stor" } w.backend = (.ok dirs, s1)) :
    (t.ListBuckets w).1
        = (some ((dirs.Entries.filter (fun e => e.Type_ = "directory")).map
            (fun e => ({ Name := e.Name, Created := e.ModifiedTime } : BucketInfo))), none)
      ∧ ((∀ e ∈ dirs.Entries, e.Type_ ≠ "directory") → (t.ListBuckets w).1 = (some [], none)) := by
  have hj : Join [MantaDefaultRootStore] = "/stor" := by decide
  have h1 : (t.ListBuckets w).1
        = (some ((dirs.Entries.filter (fun e => e.Type_ = "directory")).map
            (fun e => ({ Name := e.Name, Created := e.ModifiedTime } : BucketInfo))), none) := by
    simp only [ListBuckets, StorageClient.dirList, hj, hlist, foldl_bucketList, List.nil_append]
  refine ⟨h1, fun hno => ?_⟩
  rw [h1]
  have : dirs.Entries.filter (fun e => e.Type_ = "directory") = [] := by
    simp only [List.filter_eq_nil_iff, decide_eq_true_eq]
    exact hno
  rw [this]; rfl

/-- C4 (witness): a root with two directories and one object between them. -/
theorem ListBuckets_returns_directories_witness :
    (fakeGateway.ListBuckets
        { backend := { entries := [{ Name := "a", Type_ := "directory", ModifiedTime := 5 },
                                   { Name := "f", Type_ := "object" },
                                   { Name := "b", Type_ := "directory", ModifiedTime := 6 }] },
          requests := [] }).1
      = (some [{ Name := "a", Created := 5 }, { Name := "b", Created := 6 }], none) :=
  (ListBuckets_returns_directories fakeGateway
    { backend := { entries := [{ Name := "a", Type_ := "directory", ModifiedTime := 5 },
                               { Name := "f", Type_ := "object" },
                               { Name := "b", Type_ := "directory", ModifiedTime := 6 }] },
      requests := [] }
    { Entries := [{ Name := "a", Type_ := "directory", ModifiedTime := 5 },
                  { Name := "f", Type_ := "object" },
                  { Name := "b", Type_ := "directory", ModifiedTime := 6 }],
      ResultSetSize := 3 }
    { entries := [{ Name := "a", Type_ := "directory", ModifiedTime := 5 },
                  { Name := "f", Type_ := "object" },
                  { Name := "b", Type_ := "directory", ModifiedTime := 6 }] }
    rfl).1

/-! ## C2 and C3 -/

theorem GetObjectInfo_world (t : tritonObjects σ) (bucket object : String) (w : World σ) :
    (t.GetObjectInfo bucket object w).2
      = { backend := (t.client.ObjectsGet
            { ObjectPath := Join [MantaDefaultRootStore, bucket, object] } w.backend).2,
          requests := w.requests ++
            [Request.ObjectsGet { ObjectPath := Join [MantaDefaultRootStore, bucket, object] }] } := by
  simp only [GetObjectInfo, StorageClient.objectsGet]
  split <;> simp_all

theorem GetObjectInfo_result (t : tritonObjects σ) (bucket object : String) (w w2 : World σ)
    (h : w.backend = w2.backend) :
    (t.GetObjectInfo bucket object w).1 = (t.GetObjectInfo bucket object w2).1 := by
  simp only [GetObjectInfo, StorageClient.objectsGet, h]
  cases (t.client.ObjectsGet { ObjectPath := Join [MantaDefaultRootStore, bucket, object] }
    w2.backend).1 <;> rfl

theorem listObjectsLoop_ok (t : tritonObjects σ) (hro : ReadOnlyGets t.client)
    (bucket pfx : String) (s1 : σ) (es : List DirectoryEntry)
    (hfetch : ∀ e ∈ es, e.Type_ ≠ "directory" →
      (t.GetObjectInfo (Join [bucket, pfx]) e.Name { backend := s1, requests := [] }).1.2 = none)
    (lo : List ObjectInfo) (lp : List String) (rq : List Request) :
    listObjectsLoop t bucket pfx es (some lo) (some lp) { backend := s1, requests := rq }
      = (({ Prefixes := some (lp ++ (es.filter (fun e => e.Type_ = "directory")).map
              (fun e => e.Name ++ "/")),
            Objects := some (lo ++ (es.filter (fun e => e.Type_ ≠ "directory")).map
              (fun e => listedObject e.Name
                (t.GetObjectInfo (Join [bucket, pfx]) e.Name
                  { backend := s1, requests := [] }).1.1)) }, none),
          { backend := s1,
            requests := rq ++ (es.filter (fun e => e.Type_ ≠ "directory")).map
              (fun e => Request.ObjectsGet
                { ObjectPath := Join [MantaDefaultRootStore, Join [bucket, pfx], e.Name] }) }) := by
  induction es generalizing lo lp rq with
  | nil => simp [listObjectsLoop]
  | cons e es ih =>
    have hes : ∀ x ∈ es, x.Type_ ≠ "directory" →
        (t.GetObjectInfo (Join [bucket, pfx]) x.Name { backend := s1, requests := [] }).1.2 = none :=
      fun x hx => hfetch x (List.mem_cons_of_mem _ hx)
    by_cases hd : e.Type_ = "directory"
    · simp only [listObjectsLoop, hd, if_true, Slice_append_some, ih hes]
      simp [List.filter_cons, hd]
    · have hw := GetObjectInfo_world t (Join [bucket, pfx]) e.Name { backend := s1, requests := rq }
      have hr := GetObjectInfo_result t (Join [bucket, pfx]) e.Name
        { backend := s1, requests := rq } { backend := s1, requests := [] } rfl
      have hnone := hfetch e (List.mem_cons_self _ _) hd
      rw [hro] at hw
      rcases hg : t.GetObjectInfo (Join [bucket, pfx]) e.Name { backend := s1, requests := rq }
        with ⟨⟨info, err⟩, w1⟩
      rw [hg] at hw hr
      simp only at hw
      rw [← hr] at hnone
      simp only at hnone
      subst hnone hw
      simp only [listObjectsLoop, hd, if_false, hg, Slice_append_some, ih hes]
      simp [List.filter_cons, hd, ← hr, listedObject]

/-- C2: when the listing of path.Join("/stor", bucket, prefix) succeeds and
the metadata fetch of every non-directory entry succeeds (gets leaving the
backend unchanged), ListObjects returns nil error, Prefixes is the directory
entry names each suffixed with "/" in listing order, and Objects has one entry
per file entry in listing order, with the entry's Name and the ContentType,
ETag, ContentEncoding, Size and ModTime returned by
GetObjectInfo(path.Join(bucket, prefix), name); so there are exactly M
prefixes and N objects. -/
theorem ListObjects_partitions_entries (t : tritonObjects σ) (hro : ReadOnlyGets t.client)
    (bucket pfx marker delimiter : String) (maxKeys : Int) (w : World σ)
    (objs : ListDirectoryOutput) (s1 : σ)
    (hlist : t.client.DirList { DirectoryName := Join [MantaDefaultRootStore, bucket, pfx] }
        w.backend = (.ok objs, s1))
    (hfetch : ∀ e ∈ objs.Entries, e.Type_ ≠ "directory" →
      (t.GetObjectInfo (Join [bucket, pfx]) e.Name
        { backend := s1,
          requests := w.requests ++ [Request.DirList
            { DirectoryName := Join [MantaDefaultRootStore, bucket, pfx] }] }).1.2 = none) :
    ∃ (prefixes : List String) (objects : List ObjectInfo),
      (t.ListObjects bucket pfx marker delimiter maxKeys w).1
          = ({ Prefixes := some prefixes, Objects := some objects }, none)
        ∧ prefixes = (objs.Entries.filter (fun e => e.Type_ = "directory")).map
            (fun e => e.Name ++ "/")
        ∧ objects = (objs.Entries.filter (fun e => e.Type_ ≠ "directory")).map
            (fun e =>
              { Name := e.Name,
                ContentType := (t.GetObjectInfo (Join [bucket, pfx]) e.Name
                  { backend := s1,
                    requests := w.requests ++ [Request.DirList
                      { DirectoryName := Join [MantaDefaultRootStore, bucket, pfx] }] }).1.1.ContentType,
                ETag := (t.GetObjectInfo (Join [bucket, pfx]) e.Name
                  { backend := s1,
                    requests := w.requests ++ [Request.DirList
                      { DirectoryName := Join [MantaDefaultRootStore, bucket, pfx] }] }).1.1.ETag,
                ContentEncoding := (t.GetObjectInfo (Join [bucket, pfx]) e.Name
                  { backend := s1,
                    requests := w.requests ++ [Request.DirList
                      { DirectoryName := Join [MantaDefaultRootStore, bucket, pfx] }] }).1.1.ContentEncoding,
                Size := (t.GetObjectInfo (Join [bucket, pfx]) e.Name
                  { backend := s1,
                    requests := w.requests ++ [Request.DirList
                      { DirectoryName := Join [MantaDefaultRootStore, bucket, pfx] }] }).1.1.Size,
                ModTime := (t.GetObjectInfo (Join [bucket, pfx]) e.Name
                  { backend := s1,
                    requests := w.requests ++ [Request.DirList
                      { DirectoryName := Join [MantaDefaultRootStore, bucket, pfx] }] }).1.1.ModTime })
        ∧ prefixes.length = (objs.Entries.filter (fun e => e.Type_ = "directory")).length
        ∧ objects.length = (objs.Entries.filter (fun e => e.Type_ ≠ "directory")).length := by
  have hres : ∀ (name : String) (rq : List Request),
      (t.GetObjectInfo (Join [bucket, pfx]) name { backend := s1, requests := rq }).1
        = (t.GetObjectInfo (Join [bucket, pfx]) name { backend := s1, requests := [] }).1 :=
    fun name rq => GetObjectInfo_result t _ name _ _ rfl
  have hfetch2 : ∀ e ∈ objs.Entries, e.Type_ ≠ "directory" →
      (t.GetObjectInfo (Join [bucket, pfx]) e.Name { backend := s1, requests := [] }).1.2 = none :=
    fun e he hd => by rw [← hres]; exact hfetch e he hd
  refine ⟨_, _, ?_, rfl, rfl, by simp, by simp⟩
  simp only [ListObjects, StorageClient.dirList, hlist,
    listObjectsLoop_ok t hro bucket pfx s1 objs.Entries hfetch2, hres, List.nil_append]
  rfl

/-- C2 (witness): one directory and one file under b/p on the in-memory backend. -/
theorem ListObjects_partitions_entries_witness :
    ∃ (prefixes : List String) (objects : List ObjectInfo),
      (fakeGateway.ListObjects "b" "p" "" "/" 1000
          { backend :=
              { entries := [{ Name := "d1", Type_ := "directory" }, { Name := "f1", Type_ := "object" }],
                objects := [("/stor/b/p/f1",
                  { ContentLength := 3, ContentType := "text/plain", LastModified := 42 })] },
            requests := [] }).1
          = ({ Prefixes := some prefixes, Objects := some objects }, none)
        ∧ prefixes = ["d1/"]
        ∧ objects = [{ Name := "f1", ContentType := "text/plain", Size := 3, ModTime := 42 }]
        ∧ prefixes.length = 1 ∧ objects.length = 1 :=
  ListObjects_partitions_entries fakeGateway fakeClient_readOnlyGets "b" "p" "" "/" 1000
    { backend :=
        { entries := [{ Name := "d1", Type_ := "directory" }, { Name := "f1", Type_ := "object" }],
          objects := [("/stor/b/p/f1",
            { ContentLength := 3, ContentType := "text/plain", LastModified := 42 })] },
      requests := [] }
    { Entries := [{ Name := "d1", Type_ := "directory" }, { Name := "f1", Type_ := "object" }],
      ResultSetSize := 2 }
    { entries := [{ Name := "d1", Type_ := "directory" }, { Name := "f1", Type_ := "object" }],
      objects := [("/stor/b/p/f1",
        { ContentLength := 3, ContentType := "text/plain", LastModified := 42 })] }
    rfl (by decide)

theorem listObjectsLoop_fails (t : tritonObjects σ) (hro : ReadOnlyGets t.client)
    (bucket pfx : String) (s1 : σ) (pre : List DirectoryEntry) (e : DirectoryEntry)
    (post : List DirectoryEntry) (err : GoError)
    (hpre : ∀ x ∈ pre, x.Type_ ≠ "directory" →
      (t.GetObjectInfo (Join [bucket, pfx]) x.Name { backend := s1, requests := [] }).1.2 = none)
    (he : e.Type_ ≠ "directory")
    (herr : (t.GetObjectInfo (Join [bucket, pfx]) e.Name
      { backend := s1, requests := [] }).1.2 = some err)
    (lo : List ObjectInfo) (lp : List String) (rq : List Request) :
    listObjectsLoop t bucket pfx (pre ++ e :: post) (some lo) (some lp)
        { backend := s1, requests := rq }
      = (({}, some err),
          { backend := s1,
            requests := rq ++ (pre.filter (fun x => x.Type_ ≠ "directory") ++ [e]).map
              (fun x => Request.ObjectsGet
                { ObjectPath := Join [MantaDefaultRootStore, Join [bucket, pfx], x.Name] }) }) := by
  induction pre generalizing lo lp rq with
  | nil =>
    have hw := GetObjectInfo_world t (Join [bucket, pfx]) e.Name { backend := s1, requests := rq }
    have hr := GetObjectInfo_result t (Join [bucket, pfx]) e.Name
      { backend := s1, requests := rq } { backend := s1, requests := [] } rfl
    rw [hro] at hw
    rcases hg : t.GetObjectInfo (Join [bucket, pfx]) e.Name { backend := s1, requests := rq }
      with ⟨⟨info, err2⟩, w1⟩
    rw [hg] at hw hr
    simp only at hw
    rw [← hr] at herr
    simp only at herr
    subst herr hw
    simp only [List.nil_append, listObjectsLoop, he, if_false, hg]
    simp
  | cons x pre ih =>
    have hpre2 : ∀ y ∈ pre, y.Type_ ≠ "directory" →
        (t.GetObjectInfo (Join [bucket, pfx]) y.Name { backend := s1, requests := [] }).1.2 = none :=
      fun y hy => hpre y (List.mem_cons_of_mem _ hy)
    by_cases hd : x.Type_ = "directory"
    · rw [List.cons_append, listObjectsLoop]
      simp only [hd, if_true, Slice_append_some]
      rw [ih hpre2]
      simp [List.filter_cons, hd]
    · have hw := GetObjectInfo_world t (Join [bucket, pfx]) x.Name { backend := s1, requests := rq }
      have hr := GetObjectInfo_result t (Join [bucket, pfx]) x.Name
        { backend := s1, requests := rq } { backend := s1, requests := [] } rfl
      have hnone := hpre x (List.mem_cons_self _ _) hd
      rw [hro] at hw
      rcases hg : t.GetObjectInfo (Join [bucket, pfx]) x.Name { backend := s1, requests := rq }
        with ⟨⟨info, err2⟩, w1⟩
      rw [hg] at hw hr
      simp only at hw
      rw [← hr] at hnone
      simp only at hnone
      subst hnone hw
      rw [List.cons_append, listObjectsLoop]
      simp only [hd, if_false, hg, Slice_append_some]
      rw [ih hpre2]
      simp [List.filter_cons, hd]

/-- C3: when the listing succeeds and (gets leaving the backend unchanged) the
metadata fetch fails for a non-directory entry while it succeeds for every
non-directory entry listed before it, ListObjects returns exactly that error
with the zero-value ListObjectsInfo (nil Objects, nil Prefixes), and the
requests issued are the listing and the fetches of the file entries up to and
including the failing one: no later entry is fetched. -/
theorem ListObjects_aborts_on_first_failure (t : tritonObjects σ)
    (hro : ReadOnlyGets t.client) (bucket pfx marker delimiter : String) (maxKeys : Int)
    (w : World σ) (objs : ListDirectoryOutput) (s1 : σ)
    (pre : List DirectoryEntry) (e : DirectoryEntry) (post : List DirectoryEntry) (err : GoError)
    (hlist : t.client.DirList { DirectoryName := Join [MantaDefaultRootStore, bucket, pfx] }
        w.backend = (.ok objs, s1))
    (hsplit : objs.Entries = pre ++ e :: post)
    (hpre : ∀ x ∈ pre, x.Type_ ≠ "directory" →
      (t.GetObjectInfo (Join [bucket, pfx]) x.Name
        { backend := s1,
          requests := w.requests ++ [Request.DirList
            { DirectoryName := Join [MantaDefaultRootStore, bucket, pfx] }] }).1.2 = none)
    (he : e.Type_ ≠ "directory")
    (herr : (t.GetObjectInfo (Join [bucket, pfx]) e.Name
        { backend := s1,
          requests := w.requests ++ [Request.DirList
            { DirectoryName := Join [MantaDefaultRootStore, bucket, pfx] }] }).1.2 = some err) :
    t.ListObjects bucket pfx marker delimiter maxKeys w
      = (({ Objects := none, Prefixes := none }, some err),
          { backend := s1,
            requests := w.requests
              ++ [Request.DirList { DirectoryName := Join [MantaDefaultRootStore, bucket, pfx] }]
              ++ (pre.filter (fun x => x.Type_ ≠ "directory") ++ [e]).map
                  (fun x => Request.ObjectsGet
                    { ObjectPath :=
                        Join [MantaDefaultRootStore, Join [bucket, pfx], x.Name] }) }) := by
  have hres : ∀ (name : String) (rq : List Request),
      (t.GetObjectInfo (Join [bucket, pfx]) name { backend := s1, requests := rq }).1
        = (t.GetObjectInfo (Join [bucket, pfx]) name { backend := s1, requests := [] }).1 :=
    fun name rq => GetObjectInfo_result t _ name _ _ rfl
  rw [hres] at herr
  have hpre2 : ∀ x ∈ pre, x.Type_ ≠ "directory" →
      (t.GetObjectInfo (Join [bucket, pfx]) x.Name { backend := s1, requests := [] }).1.2 = none :=
    fun x hx hd => by rw [← hres]; exact hpre x hx hd
  simp only [ListObjects, StorageClient.dirList, hlist, hsplit,
    listObjectsLoop_fails t hro bucket pfx s1 pre e post err hpre2 he herr]

/-- C3 (witness): the third entry is missing on the backend; the fourth is never fetched. -/
theorem ListObjects_aborts_on_first_failure_witness :
    fakeGateway.ListObjects "b" "" "" "/" 1000
        { backend :=
            { entries := [{ Name := "d1", Type_ := "directory" }, { Name := "f1", Type_ := "object" },
                          { Name := "gone", Type_ := "object" }, { Name := "f2", Type_ := "object" }],
              objects := [("/stor/b/f1", { ContentLength := 3 }), ("/stor/b/f2", {})] },
          requests := [] }
      = (({ Objects := none, Prefixes := none }, some (GoError.remote "ResourceNotFound")),
          { backend :=
              { entries := [{ Name := "d1", Type_ := "directory" },
                            { Name := "f1", Type_ := "object" },
                            { Name := "gone", Type_ := "object" },
                            { Name := "f2", Type_ := "object" }],
                objects := [("/stor/b/f1", { ContentLength := 3 }), ("/stor/b/f2", {})] },
            requests := [Request.DirList { DirectoryName := "/stor/b" },
                         Request.ObjectsGet { ObjectPath := "/stor/b/f1" },
                         Request.ObjectsGet { ObjectPath := "/stor/b/gone" }] }) :=
  ListObjects_aborts_on_first_failure fakeGateway fakeClient_readOnlyGets "b" "" "" "/" 1000
    { backend :=
        { entries := [{ Name := "d1", Type_ := "directory" }, { Name := "f1", Type_ := "object" },
                      { Name := "gone", Type_ := "object" }, { Name := "f2", Type_ := "object" }],
          objects := [("/stor/b/f1", { ContentLength := 3 }), ("/stor/b/f2", {})] },
      requests := [] }
    { Entries := [{ Name := "d1", Type_ := "directory" }, { Name := "f1", Type_ := "object" },
                  { Name := "gone", Type_ := "object" }, { Name := "f2", Type_ := "object" }],
      ResultSetSize := 4 }
    { entries := [{ Name := "d1", Type_ := "directory" }, { Name := "f1", Type_ := "object" },
                  { Name := "gone", Type_ := "object" }, { Name := "f2", Type_ := "object" }],
      objects := [("/stor/b/f1", { ContentLength := 3 }), ("/stor/b/f2", {})] }
    [{ Name := "d1", Type_ := "directory" }, { Name := "f1", Type_ := "object" }]
    { Name := "gone", Type_ := "object" }
    [{ Name := "f2", Type_ := "object" }]
    (GoError.remote "ResourceNotFound")
    rfl rfl (by decide) (by decide) (by decide)

/-! ## C6 -/

/-- C6 (the code at a failing input): the object is fetched, its body has
three bytes, the writer accepts one byte and then fails; `io.Copy` reports the
write error, yet GetObject returns nil with one byte written. The same
happens when the remote reader fails after its first byte. -/
theorem GetObject_returns_nil_when_copy_fails :
    (ioCopy { written := [], limit := some (1, GoError.stream "disk full") }
        { data := [1, 2, 3], err := none }).1.2 = some (GoError.stream "disk full")
    ∧ (fakeGateway.GetObject "b" "o" 0 3
        { written := [], limit := some (1, GoError.stream "disk full") }
        { backend := { objects := [("/stor/b/o",
            { ContentLength := 3, ObjectReader := { data := [1, 2, 3], err := none } })] },
          requests := [] }).1
      = (none, { written := [1], limit := some (0, GoError.stream "disk full") })
    ∧ (ioCopy { written := [], limit := none }
        { data := [1], err := some (GoError.stream "connection reset") }).1.2
      = some (GoError.stream "connection reset")
    ∧ (fakeGateway.GetObject "b" "o" 0 3 { written := [], limit := none }
        { backend := { objects := [("/stor/b/o",
            { ContentLength := 3,
              ObjectReader := { data := [1], err := some (GoError.stream "connection reset") } })] },
          requests := [] }).1
      = (none, { written := [1], limit := none }) := by
  decide

/-! ## C7 -/

/-- C7: HealBucket, ListBucketsHeal, HealObject, ListObjectsHeal,
ListUploadsHeal and CopyObjectPart return, for every input, the error
traceError(NotImplemented) with the zero value of their result (nil bucket
list, 0 and 0, empty ListObjectsInfo, ListMultipartsInfo and PartInfo), and
leave the world (backend state and request log) as it was. -/
theorem heal_and_copy_part_not_implemented (t : tritonObjects σ) (w : World σ)
    (bucket object pfx marker uploadIDMarker delimiter : String)
    (srcBucket srcObject destBucket destObject uploadID : String)
    (maxKeys maxUploads partID startOffset length : Int) :
    t.HealBucket bucket w = (traceError (some GoError.NotImplemented), w)
    ∧ t.ListBucketsHeal w = ((none, traceError (some GoError.NotImplemented)), w)
    ∧ t.HealObject bucket object w = ((0, 0, traceError (some GoError.NotImplemented)), w)
    ∧ t.ListObjectsHeal bucket pfx marker delimiter maxKeys w
        = (({ Objects := none, Prefixes := none }, traceError (some GoError.NotImplemented)), w)
    ∧ t.ListUploadsHeal bucket pfx marker uploadIDMarker delimiter maxUploads w
        = (({ Uploads := none, CommonPrefixes := none },
            traceError (some GoError.NotImplemented)), w)
    ∧ t.CopyObjectPart srcBucket srcObject destBucket destObject uploadID partID startOffset
          length w
        = (({ PartNumber := 0, ETag := "", Size := 0 },
            traceError (some GoError.NotImplemented)), w)
    ∧ traceError (some GoError.NotImplemented) ≠ none :=
  ⟨rfl, rfl, rfl, rfl, rfl, rfl, by simp [traceError]⟩

/-! ## C8 -/

/-- C8: the anonymous reads and lists, the multipart steps list-uploads,
new-upload, put-part, list-parts and complete, the three policy operations
and CopyObject return, for every input, a nil error with the zero value of
their result and leave the world (backend state and request log) as it was;
GetBucketPolicies after SetBucketPolicies returns the empty policy. -/
theorem vacuous_success_stubs (t : tritonObjects σ) (w : World σ)
    (bucket object pfx marker delimiter continuationToken keyMarker uploadIDMarker : String)
    (uploadID md5Hex sha256sum srcBucket srcObject destBucket destObject : String)
    (fetchOwner : Bool) (maxKeys maxUploads partID size partNumberMarker maxParts : Int)
    (startOffset length : Int) (writer : Writer) (data : Reader) (metadata : GoMap)
    (uploadedParts : Slice completePart) (policyInfo : BucketAccessPolicy) :
    t.AnonGetBucketInfo bucket w = (({ Name := "", Created := 0 }, none), w)
    ∧ t.AnonGetObject bucket object startOffset length writer w = ((none, writer), w)
    ∧ t.AnonGetObjectInfo bucket object w = (({}, none), w)
    ∧ t.AnonListObjects bucket pfx marker delimiter maxKeys w
        = (({ Objects := none, Prefixes := none }, none), w)
    ∧ t.AnonListObjectsV2 bucket pfx continuationToken fetchOwner delimiter maxKeys w
        = (({ Objects := none, Prefixes := none, ContinuationToken := "" }, none), w)
    ∧ t.ListMultipartUploads bucket pfx keyMarker uploadIDMarker delimiter maxUploads w
        = (({ Uploads := none, CommonPrefixes := none }, none), w)
    ∧ t.NewMultipartUpload bucket object metadata w = (("", none), w)
    ∧ t.PutObjectPart bucket object uploadID partID size data md5Hex sha256sum w
        = (({ PartNumber := 0, ETag := "", Size := 0 }, none), w)
    ∧ t.ListObjectParts bucket object uploadID partNumberMarker maxParts w
        = (({ Bucket := "", Object := "", UploadID := "", Parts := none }, none), w)
    ∧ t.CompleteMultipartUpload bucket object uploadID uploadedParts w = (({}, none), w)
    ∧ t.SetBucketPolicies bucket policyInfo w = (none, w)
    ∧ t.GetBucketPolicies bucket w = (({ Version := "", Statements := none }, none), w)
    ∧ t.DeleteBucketPolicies bucket w = (none, w)
    ∧ t.CopyObject srcBucket srcObject destBucket destObject metadata w = (({}, none), w)
    ∧ t.GetBucketPolicies bucket (t.SetBucketPolicies bucket policyInfo w).2
        = (({ Version := "", Statements := none }, none), w)
    ∧ ({} : ObjectInfo) = { Bucket := "", Name := "", ModTime := 0, Size := 0, ETag := "",
                            ContentType := "", ContentEncoding := "" } :=
  ⟨rfl, rfl, rfl, rfl, rfl, rfl, rfl, rfl, rfl, rfl, rfl, rfl, rfl, rfl, rfl, rfl⟩

/-! ## C9 -/

theorem GoMap_index_cons_ne (m : GoMap) (k v key : String) (h : k ≠ key) :
    GoMap.index ((k, v) :: m) key = GoMap.index m key := by
  have hb : (key == k) = false := by
    simp only [beq_eq_false_iff_ne, ne_eq]
    exact fun h2 => h h2.symm
  simp [GoMap.index, List.lookup, hb]

/-- C9: when the input stream is read to its end with bytes b, PutObject
issues exactly one request, a put with ObjectPath path.Join("/stor", bucket,
object), body b, ContentLength uint64(size) and ContentType the value under
the key "content-type" (or "" when absent), and returns the zero ObjectInfo
with the error of that put; a binding under any other key (such as
"Content-Type") and sha256sum change nothing; when reading the stream fails,
the read error is returned and the world is unchanged. -/
theorem PutObject_issues_one_put (t : tritonObjects σ) (bucket object : String) (size : Int)
    (b : List Byte) (metadata : GoMap) (sha256sum : String) (w : World σ) :
    (t.PutObject bucket object size { data := b, err := none } metadata sha256sum w).2.requests
        = w.requests ++ [Request.ObjectsPut
            { ObjectPath := Join [MantaDefaultRootStore, bucket, object],
              ObjectReader := { data := b, err := none },
              ContentLength := uint64 size,
              ContentType := (metadata.lookup "content-type").getD "" }]
    ∧ (t.PutObject bucket object size { data := b, err := none } metadata sha256sum w).1
        = ({}, (t.client.ObjectsPut
            { ObjectPath := Join [MantaDefaultRootStore, bucket, object],
              ObjectReader := { data := b, err := none },
              ContentLength := uint64 size,
              ContentType := (metadata.lookup "content-type").getD "" } w.backend).1)
    ∧ (∀ k v : String, k ≠ "content-type" →
        t.PutObject bucket object size { data := b, err := none } ((k, v) :: metadata)
            sha256sum w
          = t.PutObject bucket object size { data := b, err := none } metadata sha256sum w)
    ∧ (∀ other : String,
        t.PutObject bucket object size { data := b, err := none } metadata other w
          = t.PutObject bucket object size { data := b, err := none } metadata sha256sum w)
    ∧ (∀ e : GoError,
        t.PutObject bucket object size { data := b, err := some e } metadata sha256sum w
          = (({}, some e), w)) := by
  refine ⟨?_, ?_, ?_, ?_, ?_⟩
  · rw [PutObject_of_read_ok]; rfl
  · rw [PutObject_of_read_ok]; rfl
  · intro k v hk
    rw [PutObject_of_read_ok, PutObject_of_read_ok]
    simp only [putRequest, GoMap_index_cons_ne metadata k v "content-type" hk]
  · intro other
    rw [PutObject_of_read_ok, PutObject_of_read_ok]
  · intro e
    rfl

/-- C9 (witness): a binding under "Content-Type" does not change the call. -/
theorem PutObject_issues_one_put_witness :
    fakeGateway.PutObject "b" "o" (-1) { data := [1, 2], err := none }
        (("Content-Type", "text/html") :: [("content-type", "text/plain")]) "abc"
        { backend := {}, requests := [] }
      = fakeGateway.PutObject "b" "o" (-1) { data := [1, 2], err := none }
        [("content-type", "text/plain")] "abc" { backend := {}, requests := [] } :=
  (PutObject_issues_one_put fakeGateway "b" "o" (-1) [1, 2] [("content-type", "text/plain")]
    "abc" { backend := {}, requests := [] }).2.2.1 "Content-Type" "text/html" (by decide)

/-! ## C10 -/

/-- C10 (counterexample): AbortMultipartUpload on bucket "b", object "o",
upload "u" returns nil, which is not the not-implemented error, traced or
not. -/
theorem AbortMultipartUpload_not_an_error :
    (fakeGateway.AbortMultipartUpload "b" "o" "u" { backend := {}, requests := [] }).1 = none
    ∧ (fakeGateway.AbortMultipartUpload "b" "o" "u" { backend := {}, requests := [] }).1
        ≠ traceError (some GoError.NotImplemented)
    ∧ (fakeGateway.AbortMultipartUpload "b" "o" "u" { backend := {}, requests := [] }).1
        ≠ some GoError.NotImplemented := by
  decide

/-- C10 (amended): AbortMultipartUpload returns a nil error for every bucket,
object and uploadID, and leaves the world (backend state and request log) as
it was. -/
theorem AbortMultipartUpload_vacuous_success (t : tritonObjects σ)
    (bucket object uploadID : String) (w : World σ) :
    t.AbortMultipartUpload bucket object uploadID w = (none, w) :=
  rfl

/-! ## C5 -/

theorem splitOnP_append_sep (p : Char → Bool) (a b : List Char) (c : Char) (hc : p c = true) :
    (a ++ c :: b).splitOnP p = a.splitOnP p ++ b.splitOnP p := by
  induction a with
  | nil => simp [hc]
  | cons x a ih =>
    by_cases hx : p x = true
    · simp [hx, ih]
    · simp only [List.cons_append, List.splitOnP_cons, hx, if_false, ih, Bool.false_eq_true]
      cases h : a.splitOnP p with
      | nil => exact absurd h (List.splitOnP_ne_nil p a)
      | cons y ys => rfl

theorem splitOnP_dropWhile (p : Char → Bool) (l : List Char) (x : List Char)
    (hx : x ∈ (l.dropWhile (fun c => !p c)).splitOnP p) :
    x = [] ∨ x ∈ (l.splitOnP p).tail := by
  induction l with
  | nil => simpa using hx
  | cons a l ih =>
    by_cases ha : p a = true
    · simp only [List.dropWhile_cons, ha, Bool.not_true, Bool.false_eq_true, if_false,
        List.splitOnP_cons, if_true, List.mem_cons] at hx
      simpa [ha] using hx
    · simp only [List.dropWhile_cons, ha, Bool.not_false, if_true] at hx
      rcases ih hx with h | h
      · exact Or.inl h
      · right
        simp only [List.splitOnP_cons, ha, if_false, Bool.false_eq_true]
        cases hl : l.splitOnP p with
        | nil => exact absurd hl (List.splitOnP_ne_nil p l)
        | cons y ys => rw [hl] at h; exact h

theorem underRoot_length (out : List Char) (h : underRoot out) : 5 ≤ out.length := by
  rcases h with h | h
  · subst h; simp
  · have := h.length_le
    simp at this
    omega

theorem underRoot_append_element (out elem : List Char) (h : underRoot out) :
    underRoot (out ++ ['/'] ++ elem) := by
  rcases h with h | h
  · subst h
    right
    exact ⟨elem, by simp⟩
  · right
    obtain ⟨r, hr⟩ := h
    exact ⟨r ++ ['/'] ++ elem, by simp [← hr]⟩

theorem cleanLoop_underRoot (fuel : Nat) (path out : List Char)
    (hnd : ['.', '.'] ∉ path.splitOn '/') (hout : underRoot out) :
    underRoot (cleanLoop true fuel path out 1) := by
  induction fuel generalizing path out with
  | zero => simpa [cleanLoop] using hout
  | succ fuel ih =>
    cases path with
    | nil => simpa [cleanLoop] using hout
    | cons c rest =>
      have hlen := underRoot_length out hout
      rw [cleanLoop]
      by_cases h1 : c = '/'
      · subst h1
        simp only [if_true]
        apply ih _ _ _ hout
        intro hmem
        apply hnd
        simp only [List.splitOn, List.splitOnP_cons, beq_self_eq_true, if_true, List.mem_cons]
        exact Or.inr hmem
      · simp only [h1, if_false]
        by_cases h2 : c = '.' ∧ (rest = [] ∨ rest.head? = some '/')
        · simp only [h2, and_self, if_true]
          apply ih _ _ _ hout
          obtain ⟨hc, hr⟩ := h2
          rcases hr with hr | hr
          · subst hr; simp [List.splitOn]
          · cases rest with
            | nil => simp [List.splitOn]
            | cons r rs =>
              simp only [List.head?_cons, Option.some.injEq] at hr
              subst hr hc
              intro hmem
              apply hnd
              simp only [List.splitOn, List.splitOnP_cons, beq_self_eq_true, if_true,
                List.mem_cons] at hmem ⊢
              have hdot : (('.' : Char) == '/') = false := by decide
              simp only [hdot, Bool.false_eq_true, if_false, List.modifyHead, List.mem_cons]
              rcases hmem with hm | hm
              · exact absurd hm (by simp)
              · exact Or.inr hm
        · simp only [h2, if_false]
          by_cases h3 : c = '.' ∧ rest.head? = some '.' ∧
              (rest.tail = [] ∨ rest.tail.head? = some '/')
          · exfalso
            apply hnd
            obtain ⟨hc, hr, ht⟩ := h3
            cases rest with
            | nil => simp at hr
            | cons r rs =>
              simp only [List.head?_cons, Option.some.injEq] at hr
              subst hr hc
              simp only [List.tail_cons] at ht
              have hdot : (('.' : Char) == '/') = false := by decide
              rcases ht with ht | ht
              · subst ht
                simp [List.splitOn, hdot, List.modifyHead]
              · cases rs with
                | nil => simp at ht
                | cons q qs =>
                  simp only [List.head?_cons, Option.some.injEq] at ht
                  subst ht
                  simp [List.splitOn, hdot, List.modifyHead]
          · simp only [h3, if_false]
            have hne : out.length ≠ 1 := by omega
            simp only [true_and, hne, ne_eq, not_false_eq_true, Bool.true_eq_false, false_and,
              or_false, if_true]
            apply ih
            · intro hmem
              have hfun : (fun x : Char => decide (x ≠ '/')) = (fun x => !(x == '/')) := by
                funext x
                by_cases hx : x = '/' <;> simp [hx]
              rw [List.splitOn, hfun] at hmem
              rcases splitOnP_dropWhile _ _ _ hmem with h | h
              · simp at h
              · exact hnd (List.mem_of_mem_tail h)
            · exact underRoot_append_element _ _ hout

/-- The bound on the iterations of `path.Clean` is never reached: any two
bounds of at least the length of the unread input give the same result. -/
theorem cleanLoop_fuel (rooted : Bool) (f1 f2 : Nat) (path out : List Char) (dotdot : Nat)
    (h1 : path.length ≤ f1) (h2 : path.length ≤ f2) :
    cleanLoop rooted f1 path out dotdot = cleanLoop rooted f2 path out dotdot := by
  induction f1 generalizing f2 path out dotdot with
  | zero =>
    cases path with
    | nil => cases f2 <;> simp [cleanLoop]
    | cons c rest => simp at h1
  | succ n ih =>
    cases path with
    | nil => cases f2 <;> simp [cleanLoop]
    | cons c rest =>
      cases f2 with
      | zero => simp at h2
      | succ m =>
        simp only [List.length_cons, Nat.add_le_add_iff_right] at h1 h2
        have ht : rest.tail.length ≤ rest.length := by simp
        rw [cleanLoop, cleanLoop]
        by_cases hc : c = '/'
        · simp only [hc, if_true]
          exact ih _ _ _ _ h1 h2
        · have hd : ((c :: rest).dropWhile (fun x => x ≠ '/')).length ≤ rest.length := by
            simp only [List.dropWhile_cons, ne_eq, hc, not_false_eq_true, decide_True, if_true]
            exact (List.dropWhile_suffix _).length_le
          simp only [hc, if_false]
          split_ifs <;> exact ih _ _ _ _ (by omega) (by omega)

theorem cleanChars_underRoot (rest : List Char) (hnd : ['.', '.'] ∉ rest.splitOn '/') :
    underRoot (cleanChars (['/', 's', 't', 'o', 'r', '/'] ++ rest)) := by
  have hloop : underRoot (cleanLoop true (4 + rest.length + 1)
      (['s', 't', 'o', 'r', '/'] ++ rest) ['/'] 1) := by
    have hstep : cleanLoop true (4 + rest.length + 1) (['s', 't', 'o', 'r', '/'] ++ rest) ['/'] 1
        = cleanLoop true (4 + rest.length) ('/' :: rest) ['/', 's', 't', 'o', 'r'] 1 := by
      simp [cleanLoop, List.takeWhile, List.dropWhile]
    rw [hstep]
    apply cleanLoop_underRoot
    · intro hmem
      apply hnd
      simpa [List.splitOn] using hmem
    · exact Or.inl rfl
  have hlen := underRoot_length _ hloop
  have hfuel : (['s', 't', 'o', 'r', '/'] ++ rest).length = 4 + rest.length + 1 := by
    simp; omega
  simp only [cleanChars, List.cons_append, List.nil_append, decide_True, if_true]
  simp only [List.cons_append, List.nil_append] at hfuel hloop hlen
  rw [hfuel]
  rw [if_neg (by omega)]
  exact hloop

theorem beneathRoot_mk (l : List Char) (h : underRoot l) : beneathRoot ⟨l⟩ := by
  rcases h with h | h
  · left; subst h; rfl
  · right; exact h

theorem Join_root_bucket (bucket : String) :
    Join [MantaDefaultRootStore, bucket]
      = ⟨cleanChars (['/', 's', 't', 'o', 'r', '/'] ++ bucket.data)⟩ := by
  have h : (MantaDefaultRootStore = "") = False := by decide
  have hd : MantaDefaultRootStore.data = ['/', 's', 't', 'o', 'r'] := rfl
  simp [Join, List.dropWhile, h, Clean, List.intercalate, hd]

theorem Join_root_bucket_object (bucket object : String) :
    Join [MantaDefaultRootStore, bucket, object]
      = ⟨cleanChars (['/', 's', 't', 'o', 'r', '/'] ++ (bucket.data ++ '/' :: object.data))⟩ := by
  have h : (MantaDefaultRootStore = "") = False := by decide
  have hd : MantaDefaultRootStore.data = ['/', 's', 't', 'o', 'r'] := rfl
  simp [Join, List.dropWhile, h, Clean, List.intercalate, hd]

/-- C5 (counterexample): for the bucket name ".." the path of the bucket
operations is "/", which is neither "/stor" nor under "/stor/"; DeleteBucket
then asks the remote service to delete "/". An object name can leave the
root in the same way. -/
theorem bucket_dotdot_leaves_root :
    Join [MantaDefaultRootStore, ".."] = "/"
    ∧ ¬ beneathRoot (Join [MantaDefaultRootStore, ".."])
    ∧ (fakeGateway.DeleteBucket ".." { backend := {}, requests := [] }).2.requests
        = [Request.DirDelete { DirectoryName := "/" }]
    ∧ Join [MantaDefaultRootStore, "b", "../../public/x"] = "/public/x"
    ∧ ¬ beneathRoot (Join [MantaDefaultRootStore, "b", "../../public/x"]) := by
  decide

theorem listObjectsLoop_requests (t : tritonObjects σ) (bucket pfx : String)
    (es : List DirectoryEntry) (blObjects : Slice ObjectInfo) (blPrefixes : Slice String)
    (w : World σ) :
    ∃ later, (listObjectsLoop t bucket pfx es blObjects blPrefixes w).2.requests
      = w.requests ++ later := by
  induction es generalizing blObjects blPrefixes w with
  | nil => exact ⟨[], by simp [listObjectsLoop]⟩
  | cons e es ih =>
    rw [listObjectsLoop]
    by_cases hd : e.Type_ = "directory"
    · simp only [hd, if_true]
      exact ih _ _ _
    · have hw := GetObjectInfo_world t (Join [bucket, pfx]) e.Name w
      rcases hg : t.GetObjectInfo (Join [bucket, pfx]) e.Name w with ⟨⟨info, err⟩, w1⟩
      rw [hg] at hw
      simp only at hw
      cases err with
      | some err =>
        simp only [hd, if_false, hg]
        exact ⟨_, by rw [hw]⟩
      | none =>
        simp only [hd, if_false, hg]
        obtain ⟨later, hl⟩ := ih (blObjects.append (listedObject e.Name info)) blPrefixes w1
        refine ⟨Request.ObjectsGet
          { ObjectPath := Join [MantaDefaultRootStore, Join [bucket, pfx], e.Name] } :: later, ?_⟩
        simp only [listedObject] at hl
        rw [hl, hw]
        simp

theorem operations_address_joined_paths (t : tritonObjects σ) (w : World σ)
    (bucket object location marker delimiter sha256sum : String) (maxKeys size : Int)
    (startOffset length : Int) (writer : Writer) (b : List Byte) (metadata : GoMap) :
    (t.MakeBucketWithLocation bucket location w).2.requests
        = w.requests ++ [Request.DirPut { DirectoryName := Join [MantaDefaultRootStore, bucket] }]
    ∧ (t.GetBucketInfo bucket w).2.requests
        = w.requests ++ [Request.ObjectsGet { ObjectPath := Join [MantaDefaultRootStore, bucket] }]
    ∧ (t.DeleteBucket bucket w).2.requests
        = w.requests ++
            [Request.DirDelete { DirectoryName := Join [MantaDefaultRootStore, bucket] }]
    ∧ (t.GetObject bucket object startOffset length writer w).2.requests
        = w.requests ++
            [Request.ObjectsGet { ObjectPath := Join [MantaDefaultRootStore, bucket, object] }]
    ∧ (t.GetObjectInfo bucket object w).2.requests
        = w.requests ++
            [Request.ObjectsGet { ObjectPath := Join [MantaDefaultRootStore, bucket, object] }]
    ∧ (∃ input, input.ObjectPath = Join [MantaDefaultRootStore, bucket, object] ∧
        (t.PutObject bucket object size { data := b, err := none } metadata sha256sum w).2.requests
          = w.requests ++ [Request.ObjectsPut input])
    ∧ (t.DeleteObject bucket object w).2.requests
        = w.requests ++
            [Request.ObjectsDelete { ObjectPath := Join [MantaDefaultRootStore, bucket, object] }]
    ∧ (∃ later, (t.ListObjects bucket object marker delimiter maxKeys w).2.requests
        = w.requests ++
            Request.DirList { DirectoryName := Join [MantaDefaultRootStore, bucket, object] }
              :: later) := by
  refine ⟨?_, ?_, ?_, ?_, GetObjectInfo_world t bucket object w ▸ rfl, ?_, ?_, ?_⟩
  · simp only [MakeBucketWithLocation, StorageClient.dirPut]
    cases (t.client.DirPut { DirectoryName := Join [MantaDefaultRootStore, bucket] } w.backend).1
      <;> rfl
  · simp only [GetBucketInfo, StorageClient.objectsGet]
    cases (t.client.ObjectsGet { ObjectPath := Join [MantaDefaultRootStore, bucket] }
      w.backend).1 <;> rfl
  · rfl
  · simp only [GetObject, StorageClient.objectsGet]
    cases (t.client.ObjectsGet { ObjectPath := Join [MantaDefaultRootStore, bucket, object] }
      w.backend).1 <;> rfl
  · exact ⟨putRequest bucket object size b metadata, rfl, by rw [PutObject_of_read_ok]⟩
  · simp only [DeleteObject, StorageClient.objectsDelete]
    cases (t.client.ObjectsDelete { ObjectPath := Join [MantaDefaultRootStore, bucket, object] }
      w.backend).1 <;> rfl
  · simp only [ListObjects, StorageClient.dirList]
    rcases hl : t.client.DirList
      { DirectoryName := Join [MantaDefaultRootStore, bucket, object] } w.backend with ⟨r, s1⟩
    cases r with
    | error err => exact ⟨[], rfl⟩
    | ok objs =>
      obtain ⟨later, h⟩ := listObjectsLoop_requests t bucket object objs.Entries (some [])
        (some []) ⟨s1, w.requests ++ [Request.DirList ⟨Join [MantaDefaultRootStore, bucket, object]⟩]⟩
      exact ⟨later, by simp only [h]; simp⟩

/-- C5 (amended): for every bucket name and object name (or listing prefix)
none of whose slash-separated elements is "..", the remote paths
path.Join("/stor", bucket) and path.Join("/stor", bucket, object) equal
"/stor" or begin with "/stor/"; and these are the paths of the requests that
MakeBucketWithLocation, GetBucketInfo, DeleteBucket (the first path) and
GetObject, GetObjectInfo, PutObject, DeleteObject and the listing of
ListObjects (the second path) issue. -/
theorem remote_paths_beneath_root (t : tritonObjects σ) (w : World σ)
    (bucket object location marker delimiter sha256sum : String) (maxKeys size : Int)
    (startOffset length : Int) (writer : Writer) (b : List Byte) (metadata : GoMap)
    (hb : ¬ hasDotDotElement bucket) (ho : ¬ hasDotDotElement object) :
    beneathRoot (Join [MantaDefaultRootStore, bucket])
    ∧ beneathRoot (Join [MantaDefaultRootStore, bucket, object])
    ∧ (t.MakeBucketWithLocation bucket location w).2.requests
        = w.requests ++ [Request.DirPut { DirectoryName := Join [MantaDefaultRootStore, bucket] }]
    ∧ (t.GetBucketInfo bucket w).2.requests
        = w.requests ++ [Request.ObjectsGet { ObjectPath := Join [MantaDefaultRootStore, bucket] }]
    ∧ (t.DeleteBucket bucket w).2.requests
        = w.requests ++
            [Request.DirDelete { DirectoryName := Join [MantaDefaultRootStore, bucket] }]
    ∧ (t.GetObject bucket object startOffset length writer w).2.requests
        = w.requests ++
            [Request.ObjectsGet { ObjectPath := Join [MantaDefaultRootStore, bucket, object] }]
    ∧ (t.GetObjectInfo bucket object w).2.requests
        = w.requests ++
            [Request.ObjectsGet { ObjectPath := Join [MantaDefaultRootStore, bucket, object] }]
    ∧ (∃ input, input.ObjectPath = Join [MantaDefaultRootStore, bucket, object] ∧
        (t.PutObject bucket object size { data := b, err := none } metadata sha256sum w).2.requests
          = w.requests ++ [Request.ObjectsPut input])
    ∧ (t.DeleteObject bucket object w).2.requests
        = w.requests ++
            [Request.ObjectsDelete { ObjectPath := Join [MantaDefaultRootStore, bucket, object] }]
    ∧ (∃ later, (t.ListObjects bucket object marker delimiter maxKeys w).2.requests
        = w.requests ++
            Request.DirList { DirectoryName := Join [MantaDefaultRootStore, bucket, object] }
              :: later) := by
  refine ⟨?_, ?_, operations_address_joined_paths t w bucket object location marker delimiter
    sha256sum maxKeys size startOffset length writer b metadata⟩
  · rw [Join_root_bucket]
    exact beneathRoot_mk _ (cleanChars_underRoot _ hb)
  · rw [Join_root_bucket_object]
    apply beneathRoot_mk
    apply cleanChars_underRoot
    intro hmem
    rw [List.splitOn, splitOnP_append_sep _ _ _ _ (by decide), List.mem_append] at hmem
    rcases hmem with h | h
    · exact hb h
    · exact ho h

/-- C5 (witness): names with "." elements, doubled slashes and dots inside an element stay beneath the root. -/
theorem remote_paths_beneath_root_witness :
    beneathRoot (Join [MantaDefaultRootStore, "photos/./2017"])
    ∧ beneathRoot (Join [MantaDefaultRootStore, "photos/./2017", "a..b//c.txt"]) :=
  ⟨(remote_paths_beneath_root fakeGateway { backend := {}, requests := [] } "photos/./2017"
      "a..b//c.txt" "" "" "" "" 0 0 0 0 {} [] [] (by decide) (by decide)).1,
   (remote_paths_beneath_root fakeGateway { backend := {}, requests := [] } "photos/./2017"
      "a..b//c.txt" "" "" "" "" 0 0 0 0 {} [] [] (by decide) (by decide)).2.1⟩
